import Mathlib

/-!
# Verification of the BattleGame core (src/battle_game.py)

A shallow embedding of the rules engine of the two-player 9×9 grid strategy
game implemented by `class BattleGame`.  The board is a numeric grid
(0 = empty, 1 = player-1 soldier, 2 = player-2 soldier, 3 = player-1 king,
4 = player-2 king); each player owns a 3×3 soldier formation tracked by an
origin and a 3×3 validity mask, plus a single king cell.

The numpy arrays of the source are embedded as total functions from integer
indices to cell values; every access the source performs is bounds-checked
before the access, so the behaviour outside the checked range never matters.
In-place loops that write each index at most once are rendered as pointwise
functional updates, except for the enemy-capture loop, which is rendered as
the very same nested fold over the loop ranges and then characterised
pointwise by a proved lemma.

`pygame.quit(); exit()` on a win is modelled by a `game_over` flag that
freezes the state: once set, `move_selected_piece` returns the state
unchanged (the real process has exited, so no further call can mutate it).
-/

namespace BattleGame

/-- A board is the 9×9 numpy integer grid `self.board`, embedded as a total
function on integer coordinates (all source accesses are bounds-checked). -/
abbrev Board := Int → Int → Nat

/-- A 3×3 numpy mask (indices 0..2), embedded as a total function. -/
abbrev Mask := Int → Int → Nat

/-- Write a single cell, as in `self.board[x, y] = v`. -/
def setCell (b : Board) (x y : Int) (v : Nat) : Board :=
  fun r c => if r = x ∧ c = y then v else b r c

/-- Write a 3×3 window, as in `self.board[x:x+3, y:y+3] = a`. -/
def writeWindow (b : Board) (x y : Int) (a : Mask) : Board :=
  fun r c =>
    if x ≤ r ∧ r < x + 3 ∧ y ≤ c ∧ c < y + 3 then a (r - x) (c - y) else b r c

/-- Per-player record, one entry of `self.players`. -/
structure Player where
  soldiers : Int × Int
  king : Int × Int
  symbol : Nat
  king_symbol : Nat
  mask : Mask

/-- Result of one `move_selected_piece` call.  The Python method returns
`None`; the constructor records which control-flow exit was taken (which of
the source's `return` statements / log calls fired), so that claims about
acceptance and rejection can be stated. -/
inductive MoveResult where
  | terminated      -- process already exited after a win; call cannot happen
  | nothingSelected -- `if not self.selected_piece: return` (silent)
  | outOfBounds     -- "Invalid move: Out of bounds."
  | occupied        -- "Invalid move: Space occupied by friendly unit."
  | gameWon (winner : Nat) -- "Player {p} wins! Game over." + exit()
  | moved           -- fell through to the completion code (lines 242-245)
  deriving DecidableEq, Repr

/-- The whole mutable state of a `BattleGame` instance (the fields the core
rules read or write; rendering-only fields are omitted). -/
structure GameState where
  board : Board
  player1 : Player
  player2 : Player
  hidden_king1 : Int × Int
  hidden_king2 : Int × Int
  selected_piece : Option (Int × Int)
  selected_is_king : Bool
  current_player : Nat
  log_messages : List String
  game_over : Option Nat

/-- `self.players[n - 1]` for the 1-based player number `n`. -/
def getPlayer (st : GameState) (n : Nat) : Player :=
  if n = 1 then st.player1 else st.player2

/-- Store a new mask into `self.players[n - 1]['mask']`. -/
def setPlayerMask (st : GameState) (n : Nat) (m : Mask) : GameState :=
  if n = 1 then { st with player1 := { st.player1 with mask := m } }
  else { st with player2 := { st.player2 with mask := m } }

/-- Store a new origin into `self.players[n - 1]['soldiers']`. -/
def setPlayerSoldiers (st : GameState) (n : Nat) (p : Int × Int) : GameState :=
  if n = 1 then { st with player1 := { st.player1 with soldiers := p } }
  else { st with player2 := { st.player2 with soldiers := p } }

/-- Store into `self.hidden_king[n]`. -/
def setHiddenKing (st : GameState) (n : Nat) (p : Int × Int) : GameState :=
  if n = 1 then { st with hidden_king1 := p } else { st with hidden_king2 := p }

/-- `self.log(message)`: print and append, keeping the last 10 messages. -/
def logMsg (st : GameState) (m : String) : GameState :=
  let msgs := st.log_messages ++ [m]
  { st with log_messages := if msgs.length > 10 then msgs.tail else msgs }

/-- `enemy = [2, 4] if self.current_player == 1 else [1, 3]`. -/
def enemyList (cp : Nat) : List Nat := if cp = 1 then [2, 4] else [1, 3]

/-- `enemy_index = 1 if self.current_player == 1 else 0`, converted to the
1-based player number used by `getPlayer`. -/
def enemyIndex (cp : Nat) : Nat := if cp = 1 then 2 else 1

/-- `list(range(a, b))` on integers. -/
def intRange (a b : Int) : List Int :=
  (List.range (b - a).toNat).map (fun (k : Nat) => a + (k : Int))

/-- Body of the capture double loop: for board cell `(i, j)` in the overlap,
kill the enemy mask cell `(i - ex, j - ey)` when the mover's mask is alive at
`(i - nx, j - ny)` and the enemy mask cell is still alive. -/
def captureStep (mask : Mask) (nx ny ex ey : Int) (em : Mask) (i j : Int) : Mask :=
  if mask (i - nx) (j - ny) ≠ 0 ∧ em (i - ex) (j - ey) ≠ 0 then
    fun a b => if a = i - ex ∧ b = j - ey then 0 else em a b
  else em

/-- The nested `for i in range(overlap_top, overlap_bottom): for j in
range(overlap_left, overlap_right):` capture loop over the mutable enemy
mask (`captured_positions` is logging only and is dropped). -/
def captureLoop (mask : Mask) (nx ny ex ey ot ob ol orr : Int) (em : Mask) : Mask :=
  (intRange ot ob).foldl
    (fun em1 i => (intRange ol orr).foldl (fun em2 j => captureStep mask nx ny ex ey em2 i j) em1)
    em

/-- The enemy-mask update of a formation move: overlap rectangle of the
destination window `[nx, nx+3) × [ny, ny+3)` with the enemy bounding box,
then the capture loop when the rectangle is non-empty. -/
def updatedEnemyMask (mask : Mask) (nx ny : Int) (eo : Int × Int) (em : Mask) : Mask :=
  let overlap_top := max nx eo.1
  let overlap_left := max ny eo.2
  let overlap_bottom := min (nx + 3) (eo.1 + 3)
  let overlap_right := min (ny + 3) (eo.2 + 3)
  if overlap_bottom > overlap_top ∧ overlap_right > overlap_left then
    captureLoop mask nx ny eo.1 eo.2 overlap_top overlap_bottom overlap_left overlap_right em
  else em

/-- `dest_area = self.board[new_x:new_x+3, new_y:new_y+3].copy()`. -/
def destArea (b : Board) (nx ny : Int) : Mask := fun i j => b (nx + i) (ny + j)

/-- `new_area = np.where(np.isin(dest_area, enemy), dest_area, 0)` followed
by the loop writing `self.current_player` where the mover's mask is alive.
The loop runs over indices 0..2 only, hence the range guard. -/
def newArea (da : Mask) (enemy : List Nat) (mask : Mask) (cp : Nat) : Mask :=
  fun i j =>
    if 0 ≤ i ∧ i < 3 ∧ 0 ≤ j ∧ j < 3 ∧ mask i j ≠ 0 then cp
    else if da i j ∈ enemy then da i j else 0

/-- The loop clearing the vacated origin window: cells of the old window
where the mover's mask is alive are reset to 0. -/
def clearOrig (b : Board) (orig : Int × Int) (mask : Mask) : Board :=
  fun r c =>
    if orig.1 ≤ r ∧ r < orig.1 + 3 ∧ orig.2 ≤ c ∧ c < orig.2 + 3 ∧
        mask (r - orig.1) (c - orig.2) ≠ 0 then 0
    else b r c

/-- The shared completion code of `move_selected_piece` (lines 242-245):
clear the selection, log, flip `current_player`, log the next turn. -/
def completeMove (st : GameState) (nx ny : Int) : MoveResult × GameState :=
  let st1 := { st with selected_piece := none }
  let st2 := logMsg st1
    ("Player " ++ toString st.current_player ++ " moved soldiers to (" ++
      toString nx ++ ", " ++ toString ny ++ ")")
  let st3 := { st2 with current_player := if st2.current_player = 1 then 2 else 1 }
  let st4 := logMsg st3 ("Next turn: Player " ++ toString st3.current_player)
  (.moved, st4)

/-- The `self.selected_is_king` branch of `move_selected_piece`: a king step
from `(x, y)` by `(dx, dy)`.  Note the source tests membership in the
literal list `[0, 2, 4]` and compares with the literal `4` for both players. -/
def king_move (st : GameState) (x y dx dy : Int) : MoveResult × GameState :=
  let nx := x + dx
  let ny := y + dy
  if ¬ (0 ≤ nx ∧ nx < 9 ∧ 0 ≤ ny ∧ ny < 9) then
    (.outOfBounds, logMsg st "Invalid move: Out of bounds.")
  else if st.board nx ny = 0 ∨ st.board nx ny = 2 ∨ st.board nx ny = 4 then
    if st.board nx ny = 4 then
      -- `pygame.quit(); exit()`: the process ends here; modelled by freezing
      -- the state under the `game_over` flag.
      (.gameWon st.current_player,
        { logMsg st ("Player " ++ toString st.current_player ++ " wins! Game over.")
            with game_over := some st.current_player })
    else
      let b1 := setCell st.board nx ny (st.board x y)
      let b2 := setCell b1 x y 0
      let st1 := setHiddenKing { st with board := b2 } st.current_player (nx, ny)
      completeMove st1 nx ny
  else
    (.occupied, logMsg st "Invalid move: Space occupied by friendly unit.")

/-- The formation (`else`) branch of `move_selected_piece`. -/
def formation_move (st : GameState) (dx dy : Int) : MoveResult × GameState :=
  let orig := (getPlayer st st.current_player).soldiers
  let mask := (getPlayer st st.current_player).mask
  let nx := orig.1 + dx
  let ny := orig.2 + dy
  if ¬ (0 ≤ nx ∧ nx ≤ 9 - 3 ∧ 0 ≤ ny ∧ ny ≤ 9 - 3) then
    (.outOfBounds, logMsg st "Invalid move: Out of bounds.")
  else
    let da := destArea st.board nx ny
    let enemy := enemyList st.current_player
    let eIdx := enemyIndex st.current_player
    let eo := (getPlayer st eIdx).soldiers
    let em := (getPlayer st eIdx).mask
    let em' := updatedEnemyMask mask nx ny eo em
    let na := newArea da enemy mask st.current_player
    let b2 := writeWindow (clearOrig st.board orig mask) nx ny na
    let st1 := setPlayerMask st eIdx em'
    let st2 := setPlayerSoldiers st1 st.current_player (nx, ny)
    completeMove { st2 with board := b2 } nx ny

/-- `BattleGame.move_selected_piece(direction)`. -/
def move_selected_piece (st : GameState) (dir : Int × Int) : MoveResult × GameState :=
  if st.game_over.isSome then (.terminated, st)
  else
    match st.selected_piece with
    | none => (.nothingSelected, st)
    | some sp =>
      if st.selected_is_king then king_move st sp.1 sp.2 dir.1 dir.2
      else formation_move st dir.1 dir.2

/-- `BattleGame.update_soldier_mask` (defined in the source but never
called): kill mask cells holding `player_symbol` whose destination cell
holds an enemy value. -/
def update_soldier_mask (mask : Mask) (dest_area : Mask) (enemy : List Nat)
    (player_symbol : Nat) : Mask :=
  fun i j =>
    if 0 ≤ i ∧ i < 3 ∧ 0 ≤ j ∧ j < 3 ∧ mask i j = player_symbol ∧
        dest_area i j ∈ enemy then 0
    else mask i j

/-- `BattleGame.handle_click` restricted to the board coordinates `(x, y)`
it computes from the pixel position (the pixel division is UI and is not
modelled; the selection log texts are abbreviated — they carry no
positional payload the core reads).  After a win the process has exited,
hence the same freeze guard as for moves. -/
def handle_click (st : GameState) (x y : Int) : GameState :=
  if st.game_over.isSome then st
  else if (st.board x y = 1 ∨ st.board x y = 3) ∧ st.current_player = 1 then
    if st.board x y = 1 then
      logMsg { st with selected_piece := some st.player1.soldiers, selected_is_king := false }
        "Selected soldier group for player 1."
    else
      logMsg { st with selected_piece := some (x, y), selected_is_king := true }
        "Selected king for player 1."
  else if (st.board x y = 2 ∨ st.board x y = 4) ∧ st.current_player = 2 then
    if st.board x y = 2 then
      logMsg { st with selected_piece := some st.player2.soldiers, selected_is_king := false }
        "Selected soldier group for player 2."
    else
      logMsg { st with selected_piece := some (x, y), selected_is_king := true }
        "Selected king for player 2."
  else logMsg st "Invalid selection. Not your movable piece."

/-! ## Initial state (`__init__` and `place_pieces`) -/

/-- Player 1 initial mask, `np.ones((3, 3), dtype=int)`. -/
def initMask1 : Mask := fun i j => if 0 ≤ i ∧ i < 3 ∧ 0 ≤ j ∧ j < 3 then 1 else 0

/-- Player 2 initial mask, `np.ones((3, 3), dtype=int) * 2`. -/
def initMask2 : Mask := fun i j => if 0 ≤ i ∧ i < 3 ∧ 0 ≤ j ∧ j < 3 then 2 else 0

/-- `place_pieces` applied to the zero board: each player's window receives
its mask values, then its king symbol at the king cell. -/
def initBoard : Board :=
  setCell (writeWindow (setCell (writeWindow (fun _ _ => 0) 1 1 initMask1) 0 0 3) 5 5 initMask2)
    8 8 4

/-- The state right after `BattleGame.__init__`. -/
def initState : GameState :=
  { board := initBoard
    player1 := { soldiers := (1, 1), king := (0, 0), symbol := 1, king_symbol := 3, mask := initMask1 }
    player2 := { soldiers := (5, 5), king := (8, 8), symbol := 2, king_symbol := 4, mask := initMask2 }
    hidden_king1 := (0, 0)
    hidden_king2 := (8, 8)
    selected_piece := none
    selected_is_king := false
    current_player := 1
    log_messages := []
    game_over := none }

/-! ## Event traces

A play is a list of click and move events fed to `handle_click` and
`move_selected_piece`; `execTrace` returns the final state together with
the list of move results (clicks produce no result). -/

/-- One externally fed input event. -/
inductive Event where
  | click (x y : Int)
  | move (dx dy : Int)

/-- Run a trace, accumulating the results of the move events. -/
def execTrace (st : GameState) : List Event → GameState × List MoveResult
  | [] => (st, [])
  | .click x y :: es => execTrace (handle_click st x y) es
  | .move dx dy :: es =>
    let r := move_selected_piece st (dx, dy)
    let rest := execTrace r.2 es
    (rest.1, r.1 :: rest.2)

/-- The nine index pairs of a 3×3 mask. -/
def maskCells : List (Int × Int) :=
  [(0, 0), (0, 1), (0, 2), (1, 0), (1, 1), (1, 2), (2, 0), (2, 1), (2, 2)]

/-- `MaskSet.count_alive`: the number of alive cells of a 3×3 mask. -/
def aliveCount (m : Mask) : Nat := maskCells.countP (fun p => m p.1 p.2 != 0)

/-! ## Concrete scenarios

Reachable plays used to settle the concrete claims.  Player 1 always moves
first; between two moves of one player the other player makes a waiting
king move (selection is cleared after every completed move, so each move is
preceded by a click on the piece to move). -/

/-- Player 2's king walks from `(8, 8)` up file 8 and along rank 0 to
`(0, 1)` and then tries to capture player 1's king on `(0, 0)`; player 1's
king oscillates between `(0, 0)` and `(1, 0)` and is back home for the
attempt. -/
def c1Trace : List Event :=
  [.click 0 0, .move 1 0, .click 8 8, .move (-1) 0,
   .click 1 0, .move (-1) 0, .click 7 8, .move (-1) 0,
   .click 0 0, .move 1 0, .click 6 8, .move (-1) 0,
   .click 1 0, .move (-1) 0, .click 5 8, .move (-1) 0,
   .click 0 0, .move 1 0, .click 4 8, .move (-1) 0,
   .click 1 0, .move (-1) 0, .click 3 8, .move (-1) 0,
   .click 0 0, .move 1 0, .click 2 8, .move (-1) 0,
   .click 1 0, .move (-1) 0, .click 1 8, .move (-1) 0,
   .click 0 0, .move 1 0, .click 0 8, .move 0 (-1),
   .click 1 0, .move (-1) 0, .click 0 7, .move 0 (-1),
   .click 0 0, .move 1 0, .click 0 6, .move 0 (-1),
   .click 1 0, .move (-1) 0, .click 0 5, .move 0 (-1),
   .click 0 0, .move 1 0, .click 0 4, .move 0 (-1),
   .click 1 0, .move (-1) 0, .click 0 3, .move 0 (-1),
   .click 0 0, .move 1 0, .click 0 2, .move 0 (-1),
   .click 1 0, .move (-1) 0, .click 0 1, .move 0 (-1)]

/-- Player 1's king walks from `(0, 0)` down file 0 and along rank 5 and
finishes by stepping onto `(5, 5)`, the top-left soldier of player 2's
formation; player 2's king oscillates between `(8, 8)` and `(8, 7)`. -/
def c2Trace : List Event :=
  [.click 0 0, .move 1 0, .click 8 8, .move 0 (-1),
   .click 1 0, .move 1 0, .click 8 7, .move 0 1,
   .click 2 0, .move 1 0, .click 8 8, .move 0 (-1),
   .click 3 0, .move 1 0, .click 8 7, .move 0 1,
   .click 4 0, .move 1 0, .click 8 8, .move 0 (-1),
   .click 5 0, .move 0 1, .click 8 7, .move 0 1,
   .click 5 1, .move 0 1, .click 8 8, .move 0 (-1),
   .click 5 2, .move 0 1, .click 8 7, .move 0 1,
   .click 5 3, .move 0 1, .click 8 8, .move 0 (-1),
   .click 5 4, .move 0 1]

/-- Player 2's king steps to `(7, 8)` and then left onto its own soldier at
`(7, 7)`; player 1's king oscillates in the meantime. -/
def c4Trace : List Event :=
  [.click 0 0, .move 1 0, .click 8 8, .move (-1) 0,
   .click 1 0, .move (-1) 0, .click 7 8, .move 0 (-1)]

/-- Player 1's formation travels stepwise from origin `(1, 1)` down to
`(4, 1)` and then right to destination origin `(4, 4)` (the §8 capture
scenario); player 2's king oscillates between `(8, 8)` and `(8, 7)`, its
formation stays at `(5, 5)`. -/
def c5Trace : List Event :=
  [.click 1 1, .move 1 0, .click 8 8, .move 0 (-1),
   .click 2 1, .move 1 0, .click 8 7, .move 0 1,
   .click 3 1, .move 1 0, .click 8 8, .move 0 (-1),
   .click 4 1, .move 0 1, .click 8 7, .move 0 1,
   .click 4 2, .move 0 1, .click 8 8, .move 0 (-1),
   .click 4 3, .move 0 1]

/-- The initial state with player 1's formation selected (as after clicking
cell `(1, 1)`, without the selection log entry). -/
def selState : GameState := { initState with selected_piece := some (1, 1) }

/-- A state whose player-1 formation sits at origin `(0, 0)` (reached after
one Up move from the initial placement) with the formation selected; moving
Up again leaves the board. -/
def cornerState : GameState :=
  { initState with
      player1 := { initState.player1 with soldiers := (0, 0) }
      selected_piece := some (0, 0) }

/-- A state with player 2's king parked at `(4, 1)`, inside the window that
player 1's formation is about to move onto, and player 1's formation
selected. -/
def kingInWindowState : GameState :=
  { initState with
      board := setCell initBoard 4 1 4
      player2 := { initState.player2 with king := (4, 1) }
      hidden_king2 := (4, 1)
      selected_piece := some (1, 1) }

/-! ## Basic lemmas about the state plumbing -/

theorem logMsg_board (st : GameState) (m : String) : (logMsg st m).board = st.board := rfl

theorem logMsg_player1 (st : GameState) (m : String) : (logMsg st m).player1 = st.player1 := rfl

theorem logMsg_player2 (st : GameState) (m : String) : (logMsg st m).player2 = st.player2 := rfl

theorem logMsg_current_player (st : GameState) (m : String) :
    (logMsg st m).current_player = st.current_player := rfl

theorem logMsg_selected_piece (st : GameState) (m : String) :
    (logMsg st m).selected_piece = st.selected_piece := rfl

theorem logMsg_selected_is_king (st : GameState) (m : String) :
    (logMsg st m).selected_is_king = st.selected_is_king := rfl

theorem logMsg_game_over (st : GameState) (m : String) :
    (logMsg st m).game_over = st.game_over := rfl

theorem logMsg_hidden_king1 (st : GameState) (m : String) :
    (logMsg st m).hidden_king1 = st.hidden_king1 := rfl

theorem logMsg_hidden_king2 (st : GameState) (m : String) :
    (logMsg st m).hidden_king2 = st.hidden_king2 := rfl

theorem completeMove_fst (st : GameState) (nx ny : Int) :
    (completeMove st nx ny).1 = .moved := rfl

theorem completeMove_board (st : GameState) (nx ny : Int) :
    (completeMove st nx ny).2.board = st.board := by
  unfold completeMove
  simp only [logMsg_board]

theorem completeMove_player1 (st : GameState) (nx ny : Int) :
    (completeMove st nx ny).2.player1 = st.player1 := by
  unfold completeMove
  simp only [logMsg_player1]

theorem completeMove_player2 (st : GameState) (nx ny : Int) :
    (completeMove st nx ny).2.player2 = st.player2 := by
  unfold completeMove
  simp only [logMsg_player2]

theorem completeMove_current_player (st : GameState) (nx ny : Int) :
    (completeMove st nx ny).2.current_player =
      (if st.current_player = 1 then 2 else 1) := by
  unfold completeMove
  simp only [logMsg_current_player]

theorem completeMove_selected_piece (st : GameState) (nx ny : Int) :
    (completeMove st nx ny).2.selected_piece = none := by
  unfold completeMove
  simp only [logMsg_selected_piece]

theorem completeMove_game_over (st : GameState) (nx ny : Int) :
    (completeMove st nx ny).2.game_over = st.game_over := by
  unfold completeMove
  simp only [logMsg_game_over]

theorem completeMove_hidden_king1 (st : GameState) (nx ny : Int) :
    (completeMove st nx ny).2.hidden_king1 = st.hidden_king1 := by
  unfold completeMove
  simp only [logMsg_hidden_king1]

theorem completeMove_hidden_king2 (st : GameState) (nx ny : Int) :
    (completeMove st nx ny).2.hidden_king2 = st.hidden_king2 := by
  unfold completeMove
  simp only [logMsg_hidden_king2]

/-! ## Pointwise characterisation of the capture loop -/

theorem intRange_mem (a b x : Int) : x ∈ intRange a b ↔ a ≤ x ∧ x < b := by
  unfold intRange
  simp only [List.mem_map, List.mem_range]
  constructor
  · rintro ⟨k, hk, rfl⟩
    omega
  · intro h
    exact ⟨(x - a).toNat, by omega, by omega⟩

theorem captureInner_apply (mask : Mask) (nx ny ex ey i : Int) (js : List Int)
    (em : Mask) (a b : Int) :
    (js.foldl (fun em2 j => captureStep mask nx ny ex ey em2 i j) em) a b =
      if (∃ j ∈ js, a = i - ex ∧ b = j - ey ∧ mask (i - nx) (j - ny) ≠ 0) ∧ em a b ≠ 0
      then 0 else em a b := by
  induction js generalizing em with
  | nil => simp
  | cons j js ih =>
    simp only [List.foldl_cons, List.mem_cons, exists_eq_or_imp]
    rw [ih]
    by_cases hT : a = i - ex ∧ b = j - ey
    · obtain ⟨ha, hb⟩ := hT
      subst ha; subst hb
      by_cases hM : mask (i - nx) (j - ny) = 0
      · simp [captureStep, hM]
      · by_cases hE : em (i - ex) (j - ey) = 0
        · simp [captureStep, hM, hE]
        · simp [captureStep, hM, hE]
    · have hstep : (captureStep mask nx ny ex ey em i j) a b = em a b := by
        unfold captureStep
        split
        · exact if_neg hT
        · rfl
      rw [hstep]
      have hiff : ((a = i - ex ∧ b = j - ey ∧ mask (i - nx) (j - ny) ≠ 0) ∨
          (∃ j' ∈ js, a = i - ex ∧ b = j' - ey ∧ mask (i - nx) (j' - ny) ≠ 0)) ↔
          (∃ j' ∈ js, a = i - ex ∧ b = j' - ey ∧ mask (i - nx) (j' - ny) ≠ 0) :=
        ⟨fun h => h.resolve_left (fun hc => hT ⟨hc.1, hc.2.1⟩), Or.inr⟩
      rw [if_congr (and_congr_left' hiff) rfl rfl]

theorem captureLoop_apply (mask : Mask) (nx ny ex ey ot ob ol orr : Int)
    (em : Mask) (a b : Int) :
    captureLoop mask nx ny ex ey ot ob ol orr em a b =
      if (∃ i ∈ intRange ot ob, ∃ j ∈ intRange ol orr,
            a = i - ex ∧ b = j - ey ∧ mask (i - nx) (j - ny) ≠ 0) ∧ em a b ≠ 0
      then 0 else em a b := by
  unfold captureLoop
  generalize intRange ot ob = is
  generalize intRange ol orr = js
  induction is generalizing em with
  | nil => simp
  | cons i is ih =>
    simp only [List.foldl_cons, List.mem_cons, exists_eq_or_imp]
    rw [ih]
    rw [captureInner_apply]
    by_cases hHd : (∃ j ∈ js, a = i - ex ∧ b = j - ey ∧ mask (i - nx) (j - ny) ≠ 0)
    · by_cases hE : em a b = 0
      · simp [hHd, hE]
      · simp [hHd, hE]
    · have h1 : (if (∃ j ∈ js, a = i - ex ∧ b = j - ey ∧ mask (i - nx) (j - ny) ≠ 0) ∧
          em a b ≠ 0 then 0 else em a b) = em a b := by
        rw [if_neg (fun hc => hHd hc.1)]
      rw [h1]
      have hiff : ((∃ j ∈ js, a = i - ex ∧ b = j - ey ∧ mask (i - nx) (j - ny) ≠ 0) ∨
          (∃ i' ∈ is, ∃ j ∈ js, a = i' - ex ∧ b = j - ey ∧ mask (i' - nx) (j - ny) ≠ 0)) ↔
          (∃ i' ∈ is, ∃ j ∈ js, a = i' - ex ∧ b = j - ey ∧ mask (i' - nx) (j - ny) ≠ 0) :=
        ⟨fun h => h.resolve_left hHd, Or.inr⟩
      rw [if_congr (and_congr_left' hiff) rfl rfl]

/-- Pointwise description of the complete enemy-mask update of a formation
move: the cell `(a, b)` of the enemy mask is zeroed exactly when its board
cell `(eo.1 + a, eo.2 + b)` lies in the overlap rectangle, the mover's mask
is alive at the matching destination-relative index, and the enemy cell was
alive; all other cells keep their value. -/
theorem updatedEnemyMask_apply (mask : Mask) (nx ny : Int) (eo : Int × Int)
    (em : Mask) (a b : Int) :
    updatedEnemyMask mask nx ny eo em a b =
      if (max nx eo.1 ≤ eo.1 + a ∧ eo.1 + a < min (nx + 3) (eo.1 + 3) ∧
          max ny eo.2 ≤ eo.2 + b ∧ eo.2 + b < min (ny + 3) (eo.2 + 3)) ∧
          mask (eo.1 + a - nx) (eo.2 + b - ny) ≠ 0 ∧ em a b ≠ 0
      then 0 else em a b := by
  unfold updatedEnemyMask
  by_cases hne : min (nx + 3) (eo.1 + 3) > max nx eo.1 ∧ min (ny + 3) (eo.2 + 3) > max ny eo.2
  · rw [if_pos hne, captureLoop_apply]
    congr 1
    simp only [eq_iff_iff]
    constructor
    · rintro ⟨⟨i, hi, j, hj, rfl, rfl, hm⟩, hE⟩
      rw [intRange_mem] at hi hj
      refine ⟨⟨?_, ?_, ?_, ?_⟩, ?_, hE⟩ <;> [omega; omega; omega; omega; skip]
      have h1 : eo.1 + (i - eo.1) - nx = i - nx := by ring
      have h2 : eo.2 + (j - eo.2) - ny = j - ny := by ring
      rw [h1, h2]
      exact hm
    · rintro ⟨⟨h1, h2, h3, h4⟩, hm, hE⟩
      refine ⟨⟨eo.1 + a, ?_, eo.2 + b, ?_, by ring, by ring, hm⟩, hE⟩ <;>
        rw [intRange_mem] <;> omega
  · rw [if_neg hne]
    rw [if_neg ?_]
    · rintro ⟨⟨h1, h2, h3, h4⟩, -, -⟩
      exact hne ⟨by omega, by omega⟩

/-! ## The board/mask coherence invariant -/

/-- Cell `(r, c)` lies in the 3×3 window with top-left corner `o`. -/
def inWindow (o : Int × Int) (r c : Int) : Prop :=
  o.1 ≤ r ∧ r < o.1 + 3 ∧ o.2 ≤ c ∧ c < o.2 + 3

/-- Cell `(r, c)` is one of the 81 board cells. -/
def onBoard (r c : Int) : Prop := 0 ≤ r ∧ r < 9 ∧ 0 ≤ c ∧ c < 9

/-- Board/mask coherence for one formation with origin `o`, mask `m` and
soldier symbol `s`: inside the window the board shows `s` exactly at the
alive mask cells, and `s` appears nowhere else on the board. -/
def maskBoardInv (bd : Board) (o : Int × Int) (m : Mask) (s : Nat) : Prop :=
  (∀ i j : Int, 0 ≤ i → i < 3 → 0 ≤ j → j < 3 →
    (m i j ≠ 0 ↔ bd (o.1 + i) (o.2 + j) = s)) ∧
  (∀ r c : Int, onBoard r c → ¬ inWindow o r c → bd r c ≠ s)

/-- Board/mask coherence for a player record. -/
def playerInv (bd : Board) (p : Player) : Prop :=
  maskBoardInv bd p.soldiers p.mask p.symbol

/-- The spec's §3 invariant together with the symbol assignments the source
fixes in `__init__` (player 1 soldiers are 1, player 2 soldiers are 2) and a
well-formed turn indicator. -/
def Inv (st : GameState) : Prop :=
  playerInv st.board st.player1 ∧ playerInv st.board st.player2 ∧
  st.player1.symbol = 1 ∧ st.player2.symbol = 2 ∧
  (st.current_player = 1 ∨ st.current_player = 2)

/-- Core lemma: one formation-move board rewrite (clear the vacated window,
then write the destination window) together with the capture update of the
enemy mask preserves board/mask coherence for both the mover and the enemy. -/
theorem formation_window_inv
    (bd : Board) (morig : Int × Int) (mmask : Mask) (ms : Nat)
    (eo : Int × Int) (em : Mask) (es : Nat) (enemy : List Nat)
    (nx ny : Int)
    (hm : maskBoardInv bd morig mmask ms)
    (he : maskBoardInv bd eo em es)
    (hms0 : ms ≠ 0) (hmsE : ms ∉ enemy) (hesE : es ∈ enemy) (hes0 : es ≠ 0)
    (hne : es ≠ ms) :
    maskBoardInv (writeWindow (clearOrig bd morig mmask) nx ny
        (newArea (destArea bd nx ny) enemy mmask ms)) (nx, ny) mmask ms ∧
    maskBoardInv (writeWindow (clearOrig bd morig mmask) nx ny
        (newArea (destArea bd nx ny) enemy mmask ms)) eo
      (updatedEnemyMask mmask nx ny eo em) es := by
  constructor
  · -- the mover's window after the move
    constructor
    · intro i j h0i h3i h0j h3j
      have hw : writeWindow (clearOrig bd morig mmask) nx ny
          (newArea (destArea bd nx ny) enemy mmask ms) (nx + i) (ny + j) =
          newArea (destArea bd nx ny) enemy mmask ms i j := by
        unfold writeWindow
        rw [if_pos ⟨by omega, by omega, by omega, by omega⟩]
        have e1 : nx + i - nx = i := by ring
        have e2 : ny + j - ny = j := by ring
        rw [e1, e2]
      rw [hw]
      unfold newArea
      by_cases hM : mmask i j = 0
      · rw [if_neg (fun hc => hc.2.2.2.2 hM)]
        constructor
        · intro hM'; exact absurd hM hM'
        · intro hval
          exfalso
          by_cases hmem : destArea bd nx ny i j ∈ enemy
          · rw [if_pos hmem] at hval
            exact hmsE (hval ▸ hmem)
          · rw [if_neg hmem] at hval
            exact hms0 hval.symm
      · rw [if_pos ⟨h0i, h3i, h0j, h3j, hM⟩]
        exact ⟨fun _ => rfl, fun _ => hM⟩
    · intro r c hob hnw
      have hw : writeWindow (clearOrig bd morig mmask) nx ny
          (newArea (destArea bd nx ny) enemy mmask ms) r c =
          clearOrig bd morig mmask r c := by
        unfold writeWindow
        rw [if_neg]
        intro hc
        exact hnw ⟨hc.1, hc.2.1, hc.2.2.1, hc.2.2.2⟩
      rw [hw]
      unfold clearOrig
      by_cases hcl : morig.1 ≤ r ∧ r < morig.1 + 3 ∧ morig.2 ≤ c ∧ c < morig.2 + 3 ∧
          mmask (r - morig.1) (c - morig.2) ≠ 0
      · rw [if_pos hcl]
        exact Ne.symm hms0
      · rw [if_neg hcl]
        by_cases hin : inWindow morig r c
        · obtain ⟨g1, g2, g3, g4⟩ := hin
          have hmask0 : mmask (r - morig.1) (c - morig.2) = 0 := by
            by_contra hmm
            exact hcl ⟨g1, g2, g3, g4, hmm⟩
          have hiff := hm.1 (r - morig.1) (c - morig.2)
            (by omega) (by omega) (by omega) (by omega)
          have e1 : morig.1 + (r - morig.1) = r := by ring
          have e2 : morig.2 + (c - morig.2) = c := by ring
          rw [e1, e2] at hiff
          intro hval
          exact (hiff.mpr hval) hmask0
        · exact hm.2 r c hob hin
  · -- the enemy's window after the move
    constructor
    · intro a b h0a h3a h0b h3b
      rw [updatedEnemyMask_apply]
      by_cases hin : inWindow (nx, ny) (eo.1 + a) (eo.2 + b)
      · obtain ⟨g1, g2, g3, g4⟩ := hin
        have hw : writeWindow (clearOrig bd morig mmask) nx ny
            (newArea (destArea bd nx ny) enemy mmask ms) (eo.1 + a) (eo.2 + b) =
            newArea (destArea bd nx ny) enemy mmask ms (eo.1 + a - nx) (eo.2 + b - ny) := by
          unfold writeWindow
          rw [if_pos ⟨g1, g2, g3, g4⟩]
        rw [hw]
        have hrect : max nx eo.1 ≤ eo.1 + a ∧ eo.1 + a < min (nx + 3) (eo.1 + 3) ∧
            max ny eo.2 ≤ eo.2 + b ∧ eo.2 + b < min (ny + 3) (eo.2 + 3) := by
          refine ⟨?_, ?_, ?_, ?_⟩ <;> simp only [max_le_iff, lt_min_iff, le_max_iff, min_le_iff] <;>
            constructor <;> omega
        by_cases hM : mmask (eo.1 + a - nx) (eo.2 + b - ny) = 0
        · rw [if_neg (fun hc => hc.2.1 hM)]
          unfold newArea
          rw [if_neg (fun hc => hc.2.2.2.2 hM)]
          have hda : destArea bd nx ny (eo.1 + a - nx) (eo.2 + b - ny) =
              bd (eo.1 + a) (eo.2 + b) := by
            unfold destArea
            have e1 : nx + (eo.1 + a - nx) = eo.1 + a := by ring
            have e2 : ny + (eo.2 + b - ny) = eo.2 + b := by ring
            rw [e1, e2]
          rw [hda]
          have hiff := he.1 a b h0a h3a h0b h3b
          by_cases hbv : bd (eo.1 + a) (eo.2 + b) = es
          · rw [if_pos (hbv ▸ hesE)]
            rw [hiff, hbv]
          · constructor
            · intro h'; exact absurd (hiff.mp h') hbv
            · intro hval
              exfalso
              by_cases hmem : bd (eo.1 + a) (eo.2 + b) ∈ enemy
              · rw [if_pos hmem] at hval; exact hbv hval
              · rw [if_neg hmem] at hval; exact hes0 hval.symm
        · have hna : newArea (destArea bd nx ny) enemy mmask ms
              (eo.1 + a - nx) (eo.2 + b - ny) = ms := by
            unfold newArea
            rw [if_pos ⟨by omega, by omega, by omega, by omega, hM⟩]
          rw [hna]
          by_cases hE : em a b = 0
          · rw [if_neg (fun hc => hc.2.2 hE)]
            constructor
            · intro h'; exact absurd hE h'
            · intro hval; exact absurd hval.symm hne
          · rw [if_pos ⟨hrect, hM, hE⟩]
            constructor
            · intro h'; exact absurd rfl h'
            · intro hval; exact absurd hval.symm hne
      · have hnrect : ¬ ((max nx eo.1 ≤ eo.1 + a ∧ eo.1 + a < min (nx + 3) (eo.1 + 3) ∧
            max ny eo.2 ≤ eo.2 + b ∧ eo.2 + b < min (ny + 3) (eo.2 + 3)) ∧
            mmask (eo.1 + a - nx) (eo.2 + b - ny) ≠ 0 ∧ em a b ≠ 0) := by
          rintro ⟨⟨r1, r2, r3, r4⟩, -, -⟩
          refine hin ⟨?_, ?_, ?_, ?_⟩ <;>
            simp only [max_le_iff, lt_min_iff] at r1 r2 r3 r4 <;> omega
        rw [if_neg hnrect]
        have hw : writeWindow (clearOrig bd morig mmask) nx ny
            (newArea (destArea bd nx ny) enemy mmask ms) (eo.1 + a) (eo.2 + b) =
            clearOrig bd morig mmask (eo.1 + a) (eo.2 + b) := by
          unfold writeWindow
          rw [if_neg]
          intro hc
          exact hin ⟨hc.1, hc.2.1, hc.2.2.1, hc.2.2.2⟩
        rw [hw]
        unfold clearOrig
        by_cases hcl : morig.1 ≤ eo.1 + a ∧ eo.1 + a < morig.1 + 3 ∧
            morig.2 ≤ eo.2 + b ∧ eo.2 + b < morig.2 + 3 ∧
            mmask (eo.1 + a - morig.1) (eo.2 + b - morig.2) ≠ 0
        · rw [if_pos hcl]
          obtain ⟨g1, g2, g3, g4, g5⟩ := hcl
          have hmsval := hm.1 (eo.1 + a - morig.1) (eo.2 + b - morig.2)
            (by omega) (by omega) (by omega) (by omega)
          have e1 : morig.1 + (eo.1 + a - morig.1) = eo.1 + a := by ring
          have e2 : morig.2 + (eo.2 + b - morig.2) = eo.2 + b := by ring
          rw [e1, e2] at hmsval
          have hbms : bd (eo.1 + a) (eo.2 + b) = ms := hmsval.mp g5
          have hiff := he.1 a b h0a h3a h0b h3b
          constructor
          · intro h'
            exact absurd (hbms ▸ hiff.mp h') hne.symm
          · intro hval; exact absurd hval.symm hes0
        · rw [if_neg hcl]
          exact he.1 a b h0a h3a h0b h3b
    · intro r c hob hnw
      by_cases hin : inWindow (nx, ny) r c
      · obtain ⟨g1, g2, g3, g4⟩ := hin
        have hw : writeWindow (clearOrig bd morig mmask) nx ny
            (newArea (destArea bd nx ny) enemy mmask ms) r c =
            newArea (destArea bd nx ny) enemy mmask ms (r - nx) (c - ny) := by
          unfold writeWindow
          rw [if_pos ⟨g1, g2, g3, g4⟩]
        rw [hw]
        unfold newArea
        by_cases hM : 0 ≤ r - nx ∧ r - nx < 3 ∧ 0 ≤ c - ny ∧ c - ny < 3 ∧
            mmask (r - nx) (c - ny) ≠ 0
        · rw [if_pos hM]
          exact fun h => hne h.symm
        · rw [if_neg hM]
          have hda : destArea bd nx ny (r - nx) (c - ny) = bd r c := by
            unfold destArea
            have e1 : nx + (r - nx) = r := by ring
            have e2 : ny + (c - ny) = c := by ring
            rw [e1, e2]
          rw [hda]
          have hold : bd r c ≠ es := he.2 r c hob hnw
          by_cases hmem : bd r c ∈ enemy
          · rw [if_pos hmem]; exact hold
          · rw [if_neg hmem]; exact Ne.symm hes0
      · have hw : writeWindow (clearOrig bd morig mmask) nx ny
            (newArea (destArea bd nx ny) enemy mmask ms) r c =
            clearOrig bd morig mmask r c := by
          unfold writeWindow
          rw [if_neg]
          intro hc
          exact hin ⟨hc.1, hc.2.1, hc.2.2.1, hc.2.2.2⟩
        rw [hw]
        unfold clearOrig
        split
        · exact Ne.symm hes0
        · exact he.2 r c hob hnw

theorem Inv_logMsg (st : GameState) (m : String) (h : Inv st) : Inv (logMsg st m) := by
  unfold Inv playerInv at h ⊢
  rw [logMsg_board, logMsg_player1, logMsg_player2, logMsg_current_player]
  exact h

theorem Inv_completeMove (st : GameState) (nx ny : Int)
    (h1 : playerInv st.board st.player1) (h2 : playerInv st.board st.player2)
    (hs1 : st.player1.symbol = 1) (hs2 : st.player2.symbol = 2) :
    Inv (completeMove st nx ny).2 := by
  unfold Inv
  rw [completeMove_board, completeMove_player1, completeMove_player2,
    completeMove_current_player]
  refine ⟨h1, h2, hs1, hs2, ?_⟩
  split
  · exact Or.inr rfl
  · exact Or.inl rfl

/-- A formation move preserves the board/mask coherence invariant,
whichever direction is requested. -/
theorem inv_formation (st : GameState) (dx dy : Int) (hInv : Inv st) :
    Inv (formation_move st dx dy).2 := by
  obtain ⟨h1, h2, hs1, hs2, hcp⟩ := hInv
  unfold formation_move
  by_cases hb : ¬ (0 ≤ (getPlayer st st.current_player).soldiers.1 + dx ∧
      (getPlayer st st.current_player).soldiers.1 + dx ≤ 9 - 3 ∧
      0 ≤ (getPlayer st st.current_player).soldiers.2 + dy ∧
      (getPlayer st st.current_player).soldiers.2 + dy ≤ 9 - 3)
  · rw [if_pos hb]
    exact Inv_logMsg st _ ⟨h1, h2, hs1, hs2, hcp⟩
  · rw [if_neg hb]
    rcases hcp with hcp | hcp
    · rw [hcp]
      simp only [getPlayer, enemyIndex, enemyList, setPlayerMask, setPlayerSoldiers,
        if_pos rfl, if_neg (by omega : ¬ (2 : Nat) = 1)]
      apply Inv_completeMove
      · show playerInv _ { st.player1 with soldiers := _ }
        unfold playerInv
        rw [hcp] at hb
        simp only [getPlayer, if_pos rfl] at hb
        push_neg at hb
        have hr := formation_window_inv st.board st.player1.soldiers st.player1.mask 1
          st.player2.soldiers st.player2.mask 2 [2, 4]
          (st.player1.soldiers.1 + dx) (st.player1.soldiers.2 + dy)
          (by unfold playerInv at h1; rw [hs1] at h1; exact h1)
          (by unfold playerInv at h2; rw [hs2] at h2; exact h2)
          (by decide) (by decide) (by decide) (by decide) (by decide)
        rw [hs1]
        exact hr.1
      · show playerInv _ { st.player2 with mask := _ }
        unfold playerInv
        have hr := formation_window_inv st.board st.player1.soldiers st.player1.mask 1
          st.player2.soldiers st.player2.mask 2 [2, 4]
          (st.player1.soldiers.1 + dx) (st.player1.soldiers.2 + dy)
          (by unfold playerInv at h1; rw [hs1] at h1; exact h1)
          (by unfold playerInv at h2; rw [hs2] at h2; exact h2)
          (by decide) (by decide) (by decide) (by decide) (by decide)
        rw [hs2]
        exact hr.2
      · exact hs1
      · exact hs2
    · rw [hcp]
      simp only [getPlayer, enemyIndex, enemyList, setPlayerMask, setPlayerSoldiers,
        if_pos rfl, if_neg (by omega : ¬ (2 : Nat) = 1)]
      apply Inv_completeMove
      · show playerInv _ { st.player1 with mask := _ }
        unfold playerInv
        have hr := formation_window_inv st.board st.player2.soldiers st.player2.mask 2
          st.player1.soldiers st.player1.mask 1 [1, 3]
          (st.player2.soldiers.1 + dx) (st.player2.soldiers.2 + dy)
          (by unfold playerInv at h2; rw [hs2] at h2; exact h2)
          (by unfold playerInv at h1; rw [hs1] at h1; exact h1)
          (by decide) (by decide) (by decide) (by decide) (by decide)
        rw [hs1]
        exact hr.2
      · show playerInv _ { st.player2 with soldiers := _ }
        unfold playerInv
        have hr := formation_window_inv st.board st.player2.soldiers st.player2.mask 2
          st.player1.soldiers st.player1.mask 1 [1, 3]
          (st.player2.soldiers.1 + dx) (st.player2.soldiers.2 + dy)
          (by unfold playerInv at h2; rw [hs2] at h2; exact h2)
          (by unfold playerInv at h1; rw [hs1] at h1; exact h1)
          (by decide) (by decide) (by decide) (by decide) (by decide)
        rw [hs2]
        exact hr.1
      · exact hs1
      · exact hs2

/-- The initial placement satisfies the board/mask coherence invariant. -/
theorem Inv_initState : Inv initState := by
  refine ⟨⟨?_, ?_⟩, ⟨?_, ?_⟩, rfl, rfl, Or.inl rfl⟩
  · intro i j h0i h3i h0j h3j
    show initMask1 i j ≠ 0 ↔ initBoard (1 + i) (1 + j) = 1
    simp only [initBoard, initMask1, initMask2, setCell, writeWindow]
    split_ifs <;> omega
  · intro r c hob hnw
    have hob2 : (0 : Int) ≤ r ∧ r < 9 ∧ 0 ≤ c ∧ c < 9 := hob
    have hnw2 : ¬ ((1 : Int) ≤ r ∧ r < 1 + 3 ∧ (1 : Int) ≤ c ∧ c < 1 + 3) := hnw
    show initBoard r c ≠ 1
    simp only [initBoard, initMask1, initMask2, setCell, writeWindow]
    split_ifs <;> omega
  · intro i j h0i h3i h0j h3j
    show initMask2 i j ≠ 0 ↔ initBoard (5 + i) (5 + j) = 2
    simp only [initBoard, initMask1, initMask2, setCell, writeWindow]
    split_ifs <;> omega
  · intro r c hob hnw
    have hob2 : (0 : Int) ≤ r ∧ r < 9 ∧ 0 ≤ c ∧ c < 9 := hob
    have hnw2 : ¬ ((5 : Int) ≤ r ∧ r < 5 + 3 ∧ (5 : Int) ≤ c ∧ c < 5 + 3) := hnw
    show initBoard r c ≠ 2
    simp only [initBoard, initMask1, initMask2, setCell, writeWindow]
    split_ifs <;> omega

/-! ## Field lemmas for the player and king setters -/

theorem setPlayerMask_selected_piece (st : GameState) (n : Nat) (m : Mask) :
    (setPlayerMask st n m).selected_piece = st.selected_piece := by
  unfold setPlayerMask; split <;> rfl

theorem setPlayerMask_current_player (st : GameState) (n : Nat) (m : Mask) :
    (setPlayerMask st n m).current_player = st.current_player := by
  unfold setPlayerMask; split <;> rfl

theorem setPlayerMask_hidden_king1 (st : GameState) (n : Nat) (m : Mask) :
    (setPlayerMask st n m).hidden_king1 = st.hidden_king1 := by
  unfold setPlayerMask; split <;> rfl

theorem setPlayerMask_hidden_king2 (st : GameState) (n : Nat) (m : Mask) :
    (setPlayerMask st n m).hidden_king2 = st.hidden_king2 := by
  unfold setPlayerMask; split <;> rfl

theorem setPlayerMask_game_over (st : GameState) (n : Nat) (m : Mask) :
    (setPlayerMask st n m).game_over = st.game_over := by
  unfold setPlayerMask; split <;> rfl

theorem setPlayerSoldiers_selected_piece (st : GameState) (n : Nat) (p : Int × Int) :
    (setPlayerSoldiers st n p).selected_piece = st.selected_piece := by
  unfold setPlayerSoldiers; split <;> rfl

theorem setPlayerSoldiers_current_player (st : GameState) (n : Nat) (p : Int × Int) :
    (setPlayerSoldiers st n p).current_player = st.current_player := by
  unfold setPlayerSoldiers; split <;> rfl

theorem setPlayerSoldiers_hidden_king1 (st : GameState) (n : Nat) (p : Int × Int) :
    (setPlayerSoldiers st n p).hidden_king1 = st.hidden_king1 := by
  unfold setPlayerSoldiers; split <;> rfl

theorem setPlayerSoldiers_hidden_king2 (st : GameState) (n : Nat) (p : Int × Int) :
    (setPlayerSoldiers st n p).hidden_king2 = st.hidden_king2 := by
  unfold setPlayerSoldiers; split <;> rfl

theorem setPlayerSoldiers_game_over (st : GameState) (n : Nat) (p : Int × Int) :
    (setPlayerSoldiers st n p).game_over = st.game_over := by
  unfold setPlayerSoldiers; split <;> rfl

theorem setHiddenKing_selected_piece (st : GameState) (n : Nat) (p : Int × Int) :
    (setHiddenKing st n p).selected_piece = st.selected_piece := by
  unfold setHiddenKing; split <;> rfl

theorem setHiddenKing_current_player (st : GameState) (n : Nat) (p : Int × Int) :
    (setHiddenKing st n p).current_player = st.current_player := by
  unfold setHiddenKing; split <;> rfl

theorem setHiddenKing_player1 (st : GameState) (n : Nat) (p : Int × Int) :
    (setHiddenKing st n p).player1 = st.player1 := by
  unfold setHiddenKing; split <;> rfl

theorem setHiddenKing_player2 (st : GameState) (n : Nat) (p : Int × Int) :
    (setHiddenKing st n p).player2 = st.player2 := by
  unfold setHiddenKing; split <;> rfl

theorem setHiddenKing_game_over (st : GameState) (n : Nat) (p : Int × Int) :
    (setHiddenKing st n p).game_over = st.game_over := by
  unfold setHiddenKing; split <;> rfl

/-! ## Consequences of the capture characterisation -/

/-- An enemy mask cell is dead after the update exactly when it was already
dead or it is captured: its board cell lies in the overlap rectangle and the
mover's mask is alive at the matching index. -/
theorem updatedEnemyMask_zero_iff (mask : Mask) (nx ny : Int) (eo : Int × Int)
    (em : Mask) (a b : Int) :
    updatedEnemyMask mask nx ny eo em a b = 0 ↔
      em a b = 0 ∨
      ((max nx eo.1 ≤ eo.1 + a ∧ eo.1 + a < min (nx + 3) (eo.1 + 3) ∧
        max ny eo.2 ≤ eo.2 + b ∧ eo.2 + b < min (ny + 3) (eo.2 + 3)) ∧
        mask (eo.1 + a - nx) (eo.2 + b - ny) ≠ 0) := by
  rw [updatedEnemyMask_apply]
  split_ifs with h
  · exact ⟨fun _ => Or.inr ⟨h.1, h.2.1⟩, fun _ => rfl⟩
  · constructor
    · exact Or.inl
    · rintro (h0 | ⟨hr, hm⟩)
      · exact h0
      · by_cases hE : em a b = 0
        · exact hE
        · exact absurd ⟨hr, hm, hE⟩ h

/-- If the destination window misses the enemy bounding box in either axis,
the capture update is the identity. -/
theorem updatedEnemyMask_no_overlap (mask : Mask) (nx ny : Int) (eo : Int × Int)
    (em : Mask)
    (h : min (nx + 3) (eo.1 + 3) ≤ max nx eo.1 ∨
         min (ny + 3) (eo.2 + 3) ≤ max ny eo.2) :
    updatedEnemyMask mask nx ny eo em = em := by
  funext a b
  rw [updatedEnemyMask_apply, if_neg]
  rintro ⟨⟨r1, r2, r3, r4⟩, -, -⟩
  rcases h with h | h <;> omega

/-- The capture update never revives a dead cell. -/
theorem updatedEnemyMask_alive_of_alive (mask : Mask) (nx ny : Int)
    (eo : Int × Int) (em : Mask) (a b : Int)
    (h : updatedEnemyMask mask nx ny eo em a b ≠ 0) : em a b ≠ 0 := by
  rw [updatedEnemyMask_apply] at h
  by_cases hc : em a b = 0
  · exfalso
    apply h
    split_ifs
    · rfl
    · exact hc
  · exact hc

/-- Pointwise aliveness implication bounds the alive-cell count. -/
theorem aliveCount_mono (m m' : Mask) (h : ∀ a b, m' a b ≠ 0 → m a b ≠ 0) :
    aliveCount m' ≤ aliveCount m := by
  unfold aliveCount
  refine List.countP_mono_left (fun p _ hp => ?_)
  have h1 : m' p.1 p.2 ≠ 0 := by simpa using hp
  simpa using h p.1 p.2 h1

/-! ## Player lookup plumbing -/

theorem getPlayer_one (st : GameState) : getPlayer st 1 = st.player1 := rfl

theorem getPlayer_two (st : GameState) : getPlayer st 2 = st.player2 := rfl

theorem getPlayer_ne_one (st : GameState) (n : Nat) (h : ¬ n = 1) :
    getPlayer st n = st.player2 := by
  unfold getPlayer
  rw [if_neg h]

theorem enemyIndex_one : enemyIndex 1 = 2 := rfl

theorem enemyList_one : enemyList 1 = [2, 4] := rfl

theorem enemyList_two : enemyList 2 = [1, 3] := rfl

theorem enemyIndex_ne_one (n : Nat) (h : ¬ n = 1) : enemyIndex n = 1 := by
  unfold enemyIndex
  rw [if_neg h]

theorem withBoard_board (X : GameState) (b : Board) :
    ({ X with board := b } : GameState).board = b := rfl

theorem withBoard_player1 (X : GameState) (b : Board) :
    ({ X with board := b } : GameState).player1 = X.player1 := rfl

theorem withBoard_player2 (X : GameState) (b : Board) :
    ({ X with board := b } : GameState).player2 = X.player2 := rfl

theorem withBoard_hidden_king1 (X : GameState) (b : Board) :
    ({ X with board := b } : GameState).hidden_king1 = X.hidden_king1 := rfl

theorem withBoard_hidden_king2 (X : GameState) (b : Board) :
    ({ X with board := b } : GameState).hidden_king2 = X.hidden_king2 := rfl

theorem withBoard_game_over (X : GameState) (b : Board) :
    ({ X with board := b } : GameState).game_over = X.game_over := rfl

theorem getPlayer_logMsg (st : GameState) (m : String) (n : Nat) :
    getPlayer (logMsg st m) n = getPlayer st n := by
  unfold getPlayer
  rw [logMsg_player1, logMsg_player2]

theorem getPlayer_completeMove (st : GameState) (nx ny : Int) (n : Nat) :
    getPlayer (completeMove st nx ny).2 n = getPlayer st n := by
  unfold getPlayer
  rw [completeMove_player1, completeMove_player2]

theorem getPlayer_withBoard (X : GameState) (b : Board) (n : Nat) :
    getPlayer ({ X with board := b } : GameState) n = getPlayer X n := rfl

theorem getPlayer_setHiddenKing (st : GameState) (k : Nat) (p : Int × Int) (n : Nat) :
    getPlayer (setHiddenKing st k p) n = getPlayer st n := by
  unfold getPlayer
  rw [setHiddenKing_player1, setHiddenKing_player2]

theorem getPlayer_withGameOver (X : GameState) (g : Option Nat) (n : Nat) :
    getPlayer ({ X with game_over := g } : GameState) n = getPlayer X n := rfl

theorem mask_getPlayer_setPlayerSoldiers (Y : GameState) (k : Nat) (p : Int × Int)
    (n : Nat) :
    (getPlayer (setPlayerSoldiers Y k p) n).mask = (getPlayer Y n).mask := by
  unfold getPlayer setPlayerSoldiers
  split_ifs <;> rfl

theorem setPlayerSoldiers_player1_mask (Y : GameState) (k : Nat) (p : Int × Int) :
    (setPlayerSoldiers Y k p).player1.mask = Y.player1.mask := by
  unfold setPlayerSoldiers
  split_ifs <;> rfl

theorem setPlayerSoldiers_player2_mask (Y : GameState) (k : Nat) (p : Int × Int) :
    (setPlayerSoldiers Y k p).player2.mask = Y.player2.mask := by
  unfold setPlayerSoldiers
  split_ifs <;> rfl

theorem setPlayerMask_one_player2 (Y : GameState) (m : Mask) :
    (setPlayerMask Y 1 m).player2 = Y.player2 := rfl

theorem setPlayerMask_two_player1 (Y : GameState) (m : Mask) :
    (setPlayerMask Y 2 m).player1 = Y.player1 := rfl

theorem setPlayerMask_one_player1_mask (Y : GameState) (m : Mask) :
    (setPlayerMask Y 1 m).player1.mask = m := rfl

theorem setPlayerMask_two_player2_mask (Y : GameState) (m : Mask) :
    (setPlayerMask Y 2 m).player2.mask = m := rfl

/-! ## Reduction lemmas for `move_selected_piece` -/

/-- With a live game and a formation selection, a move call runs the
formation branch. -/
theorem move_selected_piece_formation (st : GameState) (dir : Int × Int)
    (sp : Int × Int) (hgo : st.game_over = none)
    (hsp : st.selected_piece = some sp) (hk : st.selected_is_king = false) :
    move_selected_piece st dir = formation_move st dir.1 dir.2 := by
  unfold move_selected_piece
  simp only [hgo, hsp, Option.isSome_none, Bool.false_eq_true, if_false, hk]

/-- With a live game and a king selection at `sp`, a move call runs the
king branch. -/
theorem move_selected_piece_king (st : GameState) (dir : Int × Int)
    (sp : Int × Int) (hgo : st.game_over = none)
    (hsp : st.selected_piece = some sp) (hk : st.selected_is_king = true) :
    move_selected_piece st dir = king_move st sp.1 sp.2 dir.1 dir.2 := by
  unfold move_selected_piece
  simp only [hgo, hsp, Option.isSome_none, Bool.false_eq_true, if_false, hk, if_true]

/-- An in-range formation move is the completion of the capture update, the
origin-window clear and the destination-window write. -/
theorem formation_move_in_range (st : GameState) (dx dy : Int)
    (hb : 0 ≤ (getPlayer st st.current_player).soldiers.1 + dx ∧
        (getPlayer st st.current_player).soldiers.1 + dx ≤ 9 - 3 ∧
        0 ≤ (getPlayer st st.current_player).soldiers.2 + dy ∧
        (getPlayer st st.current_player).soldiers.2 + dy ≤ 9 - 3) :
    formation_move st dx dy =
      completeMove
        { setPlayerSoldiers
            (setPlayerMask st (enemyIndex st.current_player)
              (updatedEnemyMask (getPlayer st st.current_player).mask
                ((getPlayer st st.current_player).soldiers.1 + dx)
                ((getPlayer st st.current_player).soldiers.2 + dy)
                (getPlayer st (enemyIndex st.current_player)).soldiers
                (getPlayer st (enemyIndex st.current_player)).mask))
            st.current_player
            ((getPlayer st st.current_player).soldiers.1 + dx,
             (getPlayer st st.current_player).soldiers.2 + dy) with
          board := writeWindow
            (clearOrig st.board (getPlayer st st.current_player).soldiers
              (getPlayer st st.current_player).mask)
            ((getPlayer st st.current_player).soldiers.1 + dx)
            ((getPlayer st st.current_player).soldiers.2 + dy)
            (newArea
              (destArea st.board
                ((getPlayer st st.current_player).soldiers.1 + dx)
                ((getPlayer st st.current_player).soldiers.2 + dy))
              (enemyList st.current_player)
              (getPlayer st st.current_player).mask
              st.current_player) }
        ((getPlayer st st.current_player).soldiers.1 + dx)
        ((getPlayer st st.current_player).soldiers.2 + dy) := by
  unfold formation_move
  rw [if_neg (not_not_intro hb)]

/-- After an in-range formation move the enemy's stored mask is exactly the
capture update and the mover's stored mask is untouched. -/
theorem formation_move_masks (st : GameState) (dx dy : Int)
    (hb : 0 ≤ (getPlayer st st.current_player).soldiers.1 + dx ∧
        (getPlayer st st.current_player).soldiers.1 + dx ≤ 9 - 3 ∧
        0 ≤ (getPlayer st st.current_player).soldiers.2 + dy ∧
        (getPlayer st st.current_player).soldiers.2 + dy ≤ 9 - 3) :
    (getPlayer (formation_move st dx dy).2 (enemyIndex st.current_player)).mask =
      updatedEnemyMask (getPlayer st st.current_player).mask
        ((getPlayer st st.current_player).soldiers.1 + dx)
        ((getPlayer st st.current_player).soldiers.2 + dy)
        (getPlayer st (enemyIndex st.current_player)).soldiers
        (getPlayer st (enemyIndex st.current_player)).mask ∧
    (getPlayer (formation_move st dx dy).2 st.current_player).mask =
      (getPlayer st st.current_player).mask := by
  rw [formation_move_in_range st dx dy hb]
  by_cases hcp : st.current_player = 1
  · rw [hcp]
    simp only [enemyIndex_one, getPlayer_one, getPlayer_two,
      completeMove_player1, completeMove_player2, withBoard_player1,
      withBoard_player2, setPlayerSoldiers_player1_mask,
      setPlayerSoldiers_player2_mask, setPlayerMask_two_player2_mask,
      setPlayerMask_two_player1]
    exact ⟨trivial, trivial⟩
  · rw [enemyIndex_ne_one _ hcp]
    simp only [getPlayer_one, getPlayer_two, getPlayer_ne_one _ _ hcp,
      completeMove_player1, completeMove_player2, withBoard_player1,
      withBoard_player2, setPlayerSoldiers_player1_mask,
      setPlayerSoldiers_player2_mask, setPlayerMask_one_player1_mask,
      setPlayerMask_one_player2]
    exact ⟨trivial, trivial⟩

/-- Value of a window write inside the window. -/
theorem writeWindow_in (b : Board) (x y : Int) (a : Mask) (i j : Int)
    (h0i : 0 ≤ i) (h3i : i < 3) (h0j : 0 ≤ j) (h3j : j < 3) :
    writeWindow b x y a (x + i) (y + j) = a i j := by
  unfold writeWindow
  rw [if_pos ⟨by omega, by omega, by omega, by omega⟩]
  have e1 : x + i - x = i := by ring
  have e2 : y + j - y = j := by ring
  rw [e1, e2]

/-- Destination-window cell where the mover's mask is alive. -/
theorem newArea_alive (da : Mask) (enemy : List Nat) (mask : Mask) (cp : Nat)
    (i j : Int) (h0i : 0 ≤ i) (h3i : i < 3) (h0j : 0 ≤ j) (h3j : j < 3)
    (hM : mask i j ≠ 0) : newArea da enemy mask cp i j = cp := by
  unfold newArea
  rw [if_pos ⟨h0i, h3i, h0j, h3j, hM⟩]

/-- Destination-window cell where the mover's mask is dead. -/
theorem newArea_dead (da : Mask) (enemy : List Nat) (mask : Mask) (cp : Nat)
    (i j : Int) (hM : mask i j = 0) :
    newArea da enemy mask cp i j = (if da i j ∈ enemy then da i j else 0) := by
  unfold newArea
  rw [if_neg (fun hc => hc.2.2.2.2 hM)]

/-! ## Claims -/

/-- C1: the claim says a king move onto the opposing king's cell is legal
for every player and immediately ends the game with the mover as winner.
The code tests the destination against the literals `[0, 2, 4]` and `4`,
which are player 1's enemy symbols, so player 2's king can never capture
player 1's king (symbol 3): in the reachable position where player 2's king
at `(0, 1)` moves Left onto player 1's king at `(0, 0)`, the move is
rejected as occupied, the game does not end, and the turn stays with
player 2. -/
theorem C1_player2_cannot_capture_king :
    (execTrace initState c1Trace).2 =
      List.replicate 31 MoveResult.moved ++ [MoveResult.occupied] ∧
    (execTrace initState c1Trace).1.board 0 0 = 3 ∧
    (execTrace initState c1Trace).1.hidden_king1 = (0, 0) ∧
    (execTrace initState c1Trace).1.hidden_king2 = (0, 1) ∧
    (execTrace initState c1Trace).1.game_over = none ∧
    (execTrace initState c1Trace).1.current_player = 2 := by
  decide

/-- C2 counterexample: the claimed invariant "board cell holds Soldier(p)
iff p's mask cell is alive, after every sequence of legal moves, king moves
included" fails on the code: after the 19 accepted moves of `c2Trace`,
player 1's king stands on `(5, 5)` (board value 3), yet player 2's mask is
still alive at relative `(0, 0)` with its origin at `(5, 5)` — the board
shows no Soldier(2) there while the mask says alive. -/
theorem C2_board_and_mask_diverge :
    (execTrace initState c2Trace).2 = List.replicate 19 MoveResult.moved ∧
    (execTrace initState c2Trace).1.player2.soldiers = (5, 5) ∧
    (execTrace initState c2Trace).1.player2.symbol = 2 ∧
    (execTrace initState c2Trace).1.player2.mask 0 0 = 2 ∧
    (execTrace initState c2Trace).1.board (5 + 0) (5 + 0) = 3 := by
  decide

/-- C2 (amended): the board/mask coherence invariant — inside each
formation window the board holds the player's soldier symbol exactly at the
alive mask cells, and that symbol appears nowhere else — is preserved by
every `move_selected_piece` call whose active selection is a formation
(i.e. by every legal formation move and every rejected move); king moves
are excluded, because a king displacing an enemy soldier does not update
the enemy mask. -/
theorem C2_invariant_preserved_by_formation_moves (st : GameState)
    (dir : Int × Int) (hInv : Inv st) (hk : st.selected_is_king = false) :
    Inv (move_selected_piece st dir).2 := by
  unfold move_selected_piece
  by_cases hgo : st.game_over.isSome = true
  · rw [if_pos hgo]
    exact hInv
  · rw [if_neg hgo]
    cases hsp : st.selected_piece with
    | none => exact hInv
    | some sp =>
      simp only [hk, Bool.false_eq_true, if_false]
      exact inv_formation st dir.1 dir.2 hInv

/-- Witness for C2: a concrete formation move from the selected initial
state preserves the invariant. -/
theorem C2_invariant_preserved_by_formation_moves_witness :
    Inv (move_selected_piece selState (1, 0)).2 :=
  C2_invariant_preserved_by_formation_moves selState (1, 0) Inv_initState rfl

/-- C4: the claim says a king move is legal iff the destination is
in-bounds and not friendly-occupied, for every player.  The code's literal
test `board[new] in [0, 2, 4]` is only correct for player 1: in the
reachable position of `c4Trace`, player 2's king at `(7, 8)` moves Left
onto its OWN soldier at `(7, 7)` and the move is accepted — the board cell
becomes the king symbol 4, the friendly soldier disappears from the board
(its mask cell still alive), and the turn flips. -/
theorem C4_player2_king_onto_friendly_accepted :
    (execTrace initState c4Trace).2 = List.replicate 4 MoveResult.moved ∧
    (execTrace initState c4Trace).1.board 7 7 = 4 ∧
    (execTrace initState c4Trace).1.board 7 8 = 0 ∧
    (execTrace initState c4Trace).1.hidden_king2 = (7, 7) ∧
    (execTrace initState c4Trace).1.player2.mask 2 2 = 2 ∧
    (execTrace initState c4Trace).1.current_player = 1 := by
  decide

/-- C5 counterexample: the claim says that after the stepwise journey of
the all-alive mover from `(1, 1)` to `(4, 4)` against the all-alive enemy
at `(5, 5)`, only the enemy cell at relative `(0, 0)` dies.  In fact the
intermediate windows already overlap the enemy box and the final overlap is
2×2, so the enemy cell at relative `(1, 1)` (among others) is dead as
well. -/
theorem C5_more_than_one_capture :
    (execTrace initState c5Trace).2 = List.replicate 11 MoveResult.moved ∧
    (execTrace initState c5Trace).1.player1.soldiers = (4, 4) ∧
    (execTrace initState c5Trace).1.player2.soldiers = (5, 5) ∧
    (execTrace initState c5Trace).1.player2.mask 1 1 = 0 := by
  decide

/-- C5 (amended): in the §8 scenario — both masks all-alive, enemy origin
`(5, 5)`, mover travelling stepwise from `(1, 1)` down to `(4, 1)` and then
right to `(4, 4)` — the enemy mask cells at relative `(0, 0)`, `(0, 1)`,
`(1, 0)` and `(1, 1)` are dead after the final move (captures accumulate
along the route, and the final windows overlap in a 2×2 rectangle, not a
single cell), and the other five enemy cells remain alive. -/
theorem C5_stepwise_capture_amended :
    (execTrace initState c5Trace).2 = List.replicate 11 MoveResult.moved ∧
    (execTrace initState c5Trace).1.player1.soldiers = (4, 4) ∧
    (execTrace initState c5Trace).1.player2.soldiers = (5, 5) ∧
    (execTrace initState c5Trace).1.player2.mask 0 0 = 0 ∧
    (execTrace initState c5Trace).1.player2.mask 0 1 = 0 ∧
    (execTrace initState c5Trace).1.player2.mask 1 0 = 0 ∧
    (execTrace initState c5Trace).1.player2.mask 1 1 = 0 ∧
    (execTrace initState c5Trace).1.player2.mask 0 2 = 2 ∧
    (execTrace initState c5Trace).1.player2.mask 1 2 = 2 ∧
    (execTrace initState c5Trace).1.player2.mask 2 0 = 2 ∧
    (execTrace initState c5Trace).1.player2.mask 2 1 = 2 ∧
    (execTrace initState c5Trace).1.player2.mask 2 2 = 2 := by
  decide

/-- C8 counterexample: the claim says a move issued with no active
selection is rejected with all state unchanged AND a NothingSelected error
reported to the caller for display.  The code's only reporting channel is
`self.log` (which prints and feeds the rendered log); on this path it
returns without logging: the entire state, the message log included, is
identical, so nothing is reported. -/
theorem C8_move_without_selection_is_silent :
    move_selected_piece initState (1, 0) =
      (MoveResult.nothingSelected, initState) ∧
    (move_selected_piece initState (1, 0)).2.log_messages = [] := by
  exact ⟨rfl, rfl⟩

/-- C8 (amended): a move issued with no active selection is rejected and
leaves the whole state — board, masks, origins, current player, and even
the message log — unchanged; unlike the other invalid moves, no error
message is produced. -/
theorem C8_nothing_selected_noop (st : GameState) (dir : Int × Int)
    (hgo : st.game_over = none) (hsp : st.selected_piece = none) :
    move_selected_piece st dir = (MoveResult.nothingSelected, st) := by
  unfold move_selected_piece
  simp only [hgo, hsp, Option.isSome_none, Bool.false_eq_true, if_false]

/-- Witness for C8 (amended) at the initial state. -/
theorem C8_nothing_selected_noop_witness :
    move_selected_piece initState (1, 0) =
      (MoveResult.nothingSelected, initState) :=
  C8_nothing_selected_noop initState (1, 0) rfl rfl

/-- C6: a formation move whose destination origin leaves `[0, 6] × [0, 6]`
is rejected as out of bounds with the mover's origin, both masks, the
board, the current player and the game outcome unchanged (only the message
log grows); a formation move whose destination origin lies inside that
range always completes — in particular it is never rejected for
occupancy. -/
theorem C6_formation_out_of_bounds (st : GameState) (dx dy : Int)
    (sp : Int × Int) (hgo : st.game_over = none)
    (hsp : st.selected_piece = some sp) (hk : st.selected_is_king = false) :
    (¬ (0 ≤ (getPlayer st st.current_player).soldiers.1 + dx ∧
        (getPlayer st st.current_player).soldiers.1 + dx ≤ 6 ∧
        0 ≤ (getPlayer st st.current_player).soldiers.2 + dy ∧
        (getPlayer st st.current_player).soldiers.2 + dy ≤ 6) →
      (move_selected_piece st (dx, dy)).1 = MoveResult.outOfBounds ∧
      (move_selected_piece st (dx, dy)).2.board = st.board ∧
      (move_selected_piece st (dx, dy)).2.player1 = st.player1 ∧
      (move_selected_piece st (dx, dy)).2.player2 = st.player2 ∧
      (move_selected_piece st (dx, dy)).2.current_player = st.current_player ∧
      (move_selected_piece st (dx, dy)).2.game_over = none) ∧
    ((0 ≤ (getPlayer st st.current_player).soldiers.1 + dx ∧
        (getPlayer st st.current_player).soldiers.1 + dx ≤ 6 ∧
        0 ≤ (getPlayer st st.current_player).soldiers.2 + dy ∧
        (getPlayer st st.current_player).soldiers.2 + dy ≤ 6) →
      (move_selected_piece st (dx, dy)).1 = MoveResult.moved) := by
  rw [move_selected_piece_formation st (dx, dy) sp hgo hsp hk]
  constructor
  · intro h
    have hb : ¬ (0 ≤ (getPlayer st st.current_player).soldiers.1 + dx ∧
        (getPlayer st st.current_player).soldiers.1 + dx ≤ 9 - 3 ∧
        0 ≤ (getPlayer st st.current_player).soldiers.2 + dy ∧
        (getPlayer st st.current_player).soldiers.2 + dy ≤ 9 - 3) := by
      intro hc
      exact h ⟨hc.1, by omega, hc.2.2.1, by omega⟩
    unfold formation_move
    rw [if_pos hb]
    refine ⟨rfl, logMsg_board st _, logMsg_player1 st _, logMsg_player2 st _,
      logMsg_current_player st _, ?_⟩
    rw [logMsg_game_over]
    exact hgo
  · intro h
    have hb : 0 ≤ (getPlayer st st.current_player).soldiers.1 + dx ∧
        (getPlayer st st.current_player).soldiers.1 + dx ≤ 9 - 3 ∧
        0 ≤ (getPlayer st st.current_player).soldiers.2 + dy ∧
        (getPlayer st st.current_player).soldiers.2 + dy ≤ 9 - 3 := by
      exact ⟨h.1, by omega, h.2.2.1, by omega⟩
    rw [formation_move_in_range st dx dy hb]
    exact completeMove_fst _ _ _

/-- Witness for C6: from a formation parked at origin `(0, 0)`, moving Up
is rejected as out of bounds with the listed state intact, and moving Down
completes. -/
theorem C6_formation_out_of_bounds_witness :
    ((move_selected_piece cornerState ((-1), 0)).1 = MoveResult.outOfBounds ∧
     (move_selected_piece cornerState ((-1), 0)).2.board = cornerState.board ∧
     (move_selected_piece cornerState ((-1), 0)).2.player1 = cornerState.player1 ∧
     (move_selected_piece cornerState ((-1), 0)).2.player2 = cornerState.player2 ∧
     (move_selected_piece cornerState ((-1), 0)).2.current_player =
       cornerState.current_player ∧
     (move_selected_piece cornerState ((-1), 0)).2.game_over = none) ∧
    (move_selected_piece cornerState (1, 0)).1 = MoveResult.moved := by
  constructor
  · exact (C6_formation_out_of_bounds cornerState (-1) 0 (0, 0) rfl rfl rfl).1
      (by decide)
  · exact (C6_formation_out_of_bounds cornerState 1 0 (0, 0) rfl rfl rfl).2
      (by decide)

/-- C7: every move call that completes normally (result `moved`, king or
formation) clears the active selection and flips `current_player` to the
other player, and every rejected call (nothing selected, out of bounds,
occupied, or issued after the game ended) leaves both the selection and
`current_player` unchanged.  A winning king move is neither: it transitions
to the terminal state (the source exits the process before the completion
code runs). -/
theorem C7_completed_move_flips_turn (st : GameState) (dir : Int × Int) :
    ((move_selected_piece st dir).1 = MoveResult.moved →
      (move_selected_piece st dir).2.selected_piece = none ∧
      (move_selected_piece st dir).2.current_player =
        (if st.current_player = 1 then 2 else 1)) ∧
    ((move_selected_piece st dir).1 = MoveResult.nothingSelected ∨
     (move_selected_piece st dir).1 = MoveResult.outOfBounds ∨
     (move_selected_piece st dir).1 = MoveResult.occupied ∨
     (move_selected_piece st dir).1 = MoveResult.terminated →
      (move_selected_piece st dir).2.selected_piece = st.selected_piece ∧
      (move_selected_piece st dir).2.current_player = st.current_player) := by
  unfold move_selected_piece
  by_cases hgo : st.game_over.isSome = true
  · rw [if_pos hgo]
    exact ⟨fun h => MoveResult.noConfusion h, fun _ => ⟨rfl, rfl⟩⟩
  · rw [if_neg hgo]
    cases hsp : st.selected_piece with
    | none => exact ⟨fun h => MoveResult.noConfusion h, fun _ => ⟨hsp, rfl⟩⟩
    | some sp =>
      by_cases hk : st.selected_is_king = true
      · simp only [hk, if_true]
        unfold king_move
        by_cases h1 : ¬ (0 ≤ sp.1 + dir.1 ∧ sp.1 + dir.1 < 9 ∧
            0 ≤ sp.2 + dir.2 ∧ sp.2 + dir.2 < 9)
        · rw [if_pos h1]
          exact ⟨fun h => MoveResult.noConfusion h,
            fun _ => ⟨by rw [logMsg_selected_piece]; exact hsp,
              logMsg_current_player st _⟩⟩
        · rw [if_neg h1]
          by_cases h2 : st.board (sp.1 + dir.1) (sp.2 + dir.2) = 0 ∨
              st.board (sp.1 + dir.1) (sp.2 + dir.2) = 2 ∨
              st.board (sp.1 + dir.1) (sp.2 + dir.2) = 4
          · rw [if_pos h2]
            by_cases h3 : st.board (sp.1 + dir.1) (sp.2 + dir.2) = 4
            · rw [if_pos h3]
              refine ⟨fun h => MoveResult.noConfusion h, fun hr => ?_⟩
              rcases hr with h | h | h | h <;> exact MoveResult.noConfusion h
            · rw [if_neg h3]
              refine ⟨fun _ => ⟨?_, ?_⟩, fun hr => ?_⟩
              · rw [completeMove_selected_piece]
              · rw [completeMove_current_player, setHiddenKing_current_player]
              · rcases hr with h | h | h | h <;> exact MoveResult.noConfusion h
          · rw [if_neg h2]
            exact ⟨fun h => MoveResult.noConfusion h,
              fun _ => ⟨by rw [logMsg_selected_piece]; exact hsp,
                logMsg_current_player st _⟩⟩
      · simp only [hk, Bool.false_eq_true, if_false]
        unfold formation_move
        by_cases h1 : ¬ (0 ≤ (getPlayer st st.current_player).soldiers.1 + dir.1 ∧
            (getPlayer st st.current_player).soldiers.1 + dir.1 ≤ 9 - 3 ∧
            0 ≤ (getPlayer st st.current_player).soldiers.2 + dir.2 ∧
            (getPlayer st st.current_player).soldiers.2 + dir.2 ≤ 9 - 3)
        · rw [if_pos h1]
          exact ⟨fun h => MoveResult.noConfusion h,
            fun _ => ⟨by rw [logMsg_selected_piece]; exact hsp,
              logMsg_current_player st _⟩⟩
        · rw [if_neg h1]
          refine ⟨fun _ => ⟨?_, ?_⟩, fun hr => ?_⟩
          · rw [completeMove_selected_piece]
          · rw [completeMove_current_player, setPlayerSoldiers_current_player,
              setPlayerMask_current_player]
          · rcases hr with h | h | h | h <;> exact MoveResult.noConfusion h

/-- Witness for C7: the first formation move from the selected initial
state completes, clears the selection and hands the turn to player 2; a
move with nothing selected leaves both untouched. -/
theorem C7_completed_move_flips_turn_witness :
    (move_selected_piece selState (1, 0)).2.selected_piece = none ∧
    (move_selected_piece selState (1, 0)).2.current_player = 2 ∧
    (move_selected_piece initState (1, 0)).2.selected_piece =
      initState.selected_piece ∧
    (move_selected_piece initState (1, 0)).2.current_player =
      initState.current_player := by
  have h1 := (C7_completed_move_flips_turn selState (1, 0)).1 (by decide)
  have h2 := (C7_completed_move_flips_turn initState (1, 0)).2 (Or.inl (by decide))
  exact ⟨h1.1, by rw [h1.2]; rfl, h2.1, h2.2⟩

/-- C3: after a legal formation move with mover mask `M`, destination
origin `N`, enemy origin `E` and enemy mask `X`, an enemy mask cell is dead
iff it was dead before or its board cell lies in the (then non-empty)
overlap rectangle of the two bounding boxes with `M` alive at the matching
mover-relative index; when the destination window misses the enemy
bounding box the enemy mask is unchanged; and the mover's own stored mask
is never touched by the move. -/
theorem C3_capture_iff_overlap_and_alive (st : GameState) (dx dy : Int)
    (sp : Int × Int) (hgo : st.game_over = none)
    (hsp : st.selected_piece = some sp) (hk : st.selected_is_king = false)
    (hb1 : 0 ≤ (getPlayer st st.current_player).soldiers.1 + dx)
    (hb2 : (getPlayer st st.current_player).soldiers.1 + dx ≤ 6)
    (hb3 : 0 ≤ (getPlayer st st.current_player).soldiers.2 + dy)
    (hb4 : (getPlayer st st.current_player).soldiers.2 + dy ≤ 6) :
    (∀ a b : Int, 0 ≤ a → a < 3 → 0 ≤ b → b < 3 →
      ((getPlayer (move_selected_piece st (dx, dy)).2
          (enemyIndex st.current_player)).mask a b = 0 ↔
        (getPlayer st (enemyIndex st.current_player)).mask a b = 0 ∨
        ((max ((getPlayer st st.current_player).soldiers.1 + dx)
            (getPlayer st (enemyIndex st.current_player)).soldiers.1 ≤
            (getPlayer st (enemyIndex st.current_player)).soldiers.1 + a ∧
          (getPlayer st (enemyIndex st.current_player)).soldiers.1 + a <
            min ((getPlayer st st.current_player).soldiers.1 + dx + 3)
              ((getPlayer st (enemyIndex st.current_player)).soldiers.1 + 3) ∧
          max ((getPlayer st st.current_player).soldiers.2 + dy)
            (getPlayer st (enemyIndex st.current_player)).soldiers.2 ≤
            (getPlayer st (enemyIndex st.current_player)).soldiers.2 + b ∧
          (getPlayer st (enemyIndex st.current_player)).soldiers.2 + b <
            min ((getPlayer st st.current_player).soldiers.2 + dy + 3)
              ((getPlayer st (enemyIndex st.current_player)).soldiers.2 + 3)) ∧
          (getPlayer st st.current_player).mask
            ((getPlayer st (enemyIndex st.current_player)).soldiers.1 + a -
              ((getPlayer st st.current_player).soldiers.1 + dx))
            ((getPlayer st (enemyIndex st.current_player)).soldiers.2 + b -
              ((getPlayer st st.current_player).soldiers.2 + dy)) ≠ 0))) ∧
    ((min ((getPlayer st st.current_player).soldiers.1 + dx + 3)
        ((getPlayer st (enemyIndex st.current_player)).soldiers.1 + 3) ≤
        max ((getPlayer st st.current_player).soldiers.1 + dx)
          (getPlayer st (enemyIndex st.current_player)).soldiers.1 ∨
      min ((getPlayer st st.current_player).soldiers.2 + dy + 3)
        ((getPlayer st (enemyIndex st.current_player)).soldiers.2 + 3) ≤
        max ((getPlayer st st.current_player).soldiers.2 + dy)
          (getPlayer st (enemyIndex st.current_player)).soldiers.2) →
      (getPlayer (move_selected_piece st (dx, dy)).2
          (enemyIndex st.current_player)).mask =
        (getPlayer st (enemyIndex st.current_player)).mask) ∧
    (getPlayer (move_selected_piece st (dx, dy)).2 st.current_player).mask =
      (getPlayer st st.current_player).mask := by
  rw [move_selected_piece_formation st (dx, dy) sp hgo hsp hk]
  have hmask := formation_move_masks st dx dy ⟨hb1, by omega, hb3, by omega⟩
  refine ⟨?_, ?_, hmask.2⟩
  · intro a b h0a h3a h0b h3b
    rw [hmask.1]
    exact updatedEnemyMask_zero_iff _ _ _ _ _ a b
  · intro hdisj
    rw [hmask.1]
    exact updatedEnemyMask_no_overlap _ _ _ _ _ hdisj

/-- Witness for C3: the first move of player 1's formation from the
selected initial state is far from the enemy box, so the enemy mask is
untouched, and the mover's stored mask is untouched as well. -/
theorem C3_capture_iff_overlap_and_alive_witness :
    (getPlayer (move_selected_piece selState (1, 0)).2 2).mask =
      (getPlayer selState 2).mask ∧
    (getPlayer (move_selected_piece selState (1, 0)).2 1).mask =
      (getPlayer selState 1).mask := by
  have h := C3_capture_iff_overlap_and_alive selState 1 0 (1, 1)
    rfl rfl rfl (by decide) (by decide) (by decide) (by decide)
  exact ⟨h.2.1 (Or.inl (by decide)), h.2.2⟩

/-- C9: a legal formation move rebuilds its destination window without any
regard for kings: every window cell where the mover's mask is alive becomes
the mover's soldier symbol (erasing either king standing there), every
other window cell keeps its old value only if that value is in the enemy
symbol list — so the mover's own king symbol is always removed from the
window — the game does not end, the stored king positions are not updated,
and the move completes normally. -/
theorem C9_formation_move_overwrites_kings (st : GameState) (dx dy : Int)
    (sp : Int × Int) (hgo : st.game_over = none)
    (hsp : st.selected_piece = some sp) (hk : st.selected_is_king = false)
    (hcp : st.current_player = 1 ∨ st.current_player = 2)
    (hb1 : 0 ≤ (getPlayer st st.current_player).soldiers.1 + dx)
    (hb2 : (getPlayer st st.current_player).soldiers.1 + dx ≤ 6)
    (hb3 : 0 ≤ (getPlayer st st.current_player).soldiers.2 + dy)
    (hb4 : (getPlayer st st.current_player).soldiers.2 + dy ≤ 6) :
    (∀ i j : Int, 0 ≤ i → i < 3 → 0 ≤ j → j < 3 →
      (getPlayer st st.current_player).mask i j ≠ 0 →
      (move_selected_piece st (dx, dy)).2.board
          ((getPlayer st st.current_player).soldiers.1 + dx + i)
          ((getPlayer st st.current_player).soldiers.2 + dy + j) =
        st.current_player) ∧
    (∀ i j : Int, 0 ≤ i → i < 3 → 0 ≤ j → j < 3 →
      (getPlayer st st.current_player).mask i j = 0 →
      (move_selected_piece st (dx, dy)).2.board
          ((getPlayer st st.current_player).soldiers.1 + dx + i)
          ((getPlayer st st.current_player).soldiers.2 + dy + j) =
        (if st.board ((getPlayer st st.current_player).soldiers.1 + dx + i)
              ((getPlayer st st.current_player).soldiers.2 + dy + j) ∈
            enemyList st.current_player
         then st.board ((getPlayer st st.current_player).soldiers.1 + dx + i)
              ((getPlayer st st.current_player).soldiers.2 + dy + j)
         else 0)) ∧
    (∀ i j : Int, 0 ≤ i → i < 3 → 0 ≤ j → j < 3 →
      (move_selected_piece st (dx, dy)).2.board
          ((getPlayer st st.current_player).soldiers.1 + dx + i)
          ((getPlayer st st.current_player).soldiers.2 + dy + j) ≠
        (if st.current_player = 1 then 3 else 4)) ∧
    (∀ i j : Int, 0 ≤ i → i < 3 → 0 ≤ j → j < 3 →
      (getPlayer st st.current_player).mask i j ≠ 0 →
      (move_selected_piece st (dx, dy)).2.board
          ((getPlayer st st.current_player).soldiers.1 + dx + i)
          ((getPlayer st st.current_player).soldiers.2 + dy + j) ≠
        (if st.current_player = 1 then 4 else 3)) ∧
    (move_selected_piece st (dx, dy)).2.hidden_king1 = st.hidden_king1 ∧
    (move_selected_piece st (dx, dy)).2.hidden_king2 = st.hidden_king2 ∧
    (move_selected_piece st (dx, dy)).2.game_over = none ∧
    (move_selected_piece st (dx, dy)).1 = MoveResult.moved := by
  rw [move_selected_piece_formation st (dx, dy) sp hgo hsp hk,
    formation_move_in_range st dx dy ⟨hb1, by omega, hb3, by omega⟩]
  have hval : ∀ i j : Int, 0 ≤ i → i < 3 → 0 ≤ j → j < 3 →
      (completeMove
        { setPlayerSoldiers
            (setPlayerMask st (enemyIndex st.current_player)
              (updatedEnemyMask (getPlayer st st.current_player).mask
                ((getPlayer st st.current_player).soldiers.1 + dx)
                ((getPlayer st st.current_player).soldiers.2 + dy)
                (getPlayer st (enemyIndex st.current_player)).soldiers
                (getPlayer st (enemyIndex st.current_player)).mask))
            st.current_player
            ((getPlayer st st.current_player).soldiers.1 + dx,
             (getPlayer st st.current_player).soldiers.2 + dy) with
          board := writeWindow
            (clearOrig st.board (getPlayer st st.current_player).soldiers
              (getPlayer st st.current_player).mask)
            ((getPlayer st st.current_player).soldiers.1 + dx)
            ((getPlayer st st.current_player).soldiers.2 + dy)
            (newArea
              (destArea st.board
                ((getPlayer st st.current_player).soldiers.1 + dx)
                ((getPlayer st st.current_player).soldiers.2 + dy))
              (enemyList st.current_player)
              (getPlayer st st.current_player).mask
              st.current_player) }
        ((getPlayer st st.current_player).soldiers.1 + dx)
        ((getPlayer st st.current_player).soldiers.2 + dy)).2.board
        ((getPlayer st st.current_player).soldiers.1 + dx + i)
        ((getPlayer st st.current_player).soldiers.2 + dy + j) =
      newArea
        (destArea st.board ((getPlayer st st.current_player).soldiers.1 + dx)
          ((getPlayer st st.current_player).soldiers.2 + dy))
        (enemyList st.current_player)
        (getPlayer st st.current_player).mask st.current_player i j := by
    intro i j h0i h3i h0j h3j
    rw [completeMove_board, withBoard_board,
      writeWindow_in _ _ _ _ i j h0i h3i h0j h3j]
  refine ⟨?_, ?_, ?_, ?_, ?_, ?_, ?_, completeMove_fst _ _ _⟩
  · intro i j h0i h3i h0j h3j hM
    rw [hval i j h0i h3i h0j h3j,
      newArea_alive _ _ _ _ i j h0i h3i h0j h3j hM]
  · intro i j h0i h3i h0j h3j hM
    rw [hval i j h0i h3i h0j h3j, newArea_dead _ _ _ _ i j hM]
    rfl
  · intro i j h0i h3i h0j h3j
    rw [hval i j h0i h3i h0j h3j]
    rcases hcp with hcp | hcp <;> rw [hcp]
    · simp only [reduceIte]
      by_cases hM : (getPlayer st 1).mask i j = 0
      · rw [newArea_dead _ _ _ _ i j hM, enemyList_one]
        split_ifs with hmem
        · simp only [List.mem_cons, List.mem_singleton, List.not_mem_nil,
            or_false] at hmem
          omega
        · decide
      · rw [newArea_alive _ _ _ _ i j h0i h3i h0j h3j hM]
        decide
    · rw [if_neg (by decide : ¬ (2 : Nat) = 1)]
      by_cases hM : (getPlayer st 2).mask i j = 0
      · rw [newArea_dead _ _ _ _ i j hM, enemyList_two]
        split_ifs with hmem
        · simp only [List.mem_cons, List.mem_singleton, List.not_mem_nil,
            or_false] at hmem
          omega
        · decide
      · rw [newArea_alive _ _ _ _ i j h0i h3i h0j h3j hM]
        decide
  · intro i j h0i h3i h0j h3j hM
    rw [hval i j h0i h3i h0j h3j,
      newArea_alive _ _ _ _ i j h0i h3i h0j h3j hM]
    rcases hcp with hcp | hcp <;> rw [hcp] <;> decide
  · rw [completeMove_hidden_king1, withBoard_hidden_king1,
      setPlayerSoldiers_hidden_king1, setPlayerMask_hidden_king1]
  · rw [completeMove_hidden_king2, withBoard_hidden_king2,
      setPlayerSoldiers_hidden_king2, setPlayerMask_hidden_king2]
  · rw [completeMove_game_over, withBoard_game_over,
      setPlayerSoldiers_game_over, setPlayerMask_game_over]
    exact hgo

/-- Witness for C9: from `kingInWindowState` (player 2's king parked at
`(4, 1)`) the Down move of player 1's formation overwrites the king cell
with a soldier, leaves the stored king position pointing at `(4, 1)`, and
the game continues. -/
theorem C9_formation_move_overwrites_kings_witness :
    (move_selected_piece kingInWindowState (1, 0)).2.board 4 1 = 1 ∧
    (move_selected_piece kingInWindowState (1, 0)).2.hidden_king2 = (4, 1) ∧
    (move_selected_piece kingInWindowState (1, 0)).2.game_over = none ∧
    (move_selected_piece kingInWindowState (1, 0)).1 = MoveResult.moved := by
  have h := C9_formation_move_overwrites_kings kingInWindowState 1 0 (1, 1)
    rfl rfl rfl (Or.inl rfl) (by decide) (by decide) (by decide) (by decide)
  refine ⟨?_, h.2.2.2.2.2.1, h.2.2.2.2.2.2.1, h.2.2.2.2.2.2.2⟩
  have h41 := h.1 2 0 (by decide) (by decide) (by decide) (by decide) (by decide)
  exact h41

/-- C10: mask aliveness is monotone under the game's operations — no call
to `move_selected_piece` ever turns a dead mask cell back alive, so each
player's alive-cell count never increases; a move with a formation selected
leaves the mover's own stored mask exactly unchanged; and the helper
`update_soldier_mask` only kills cells, never revives them. -/
theorem C10_masks_monotone (st : GameState) (dir : Int × Int) :
    (∀ (n : Nat) (a b : Int),
      (getPlayer (move_selected_piece st dir).2 n).mask a b ≠ 0 →
      (getPlayer st n).mask a b ≠ 0) ∧
    (∀ n : Nat,
      aliveCount (getPlayer (move_selected_piece st dir).2 n).mask ≤
        aliveCount (getPlayer st n).mask) ∧
    (st.selected_is_king = false →
      (getPlayer (move_selected_piece st dir).2 st.current_player).mask =
        (getPlayer st st.current_player).mask) ∧
    (∀ (m da : Mask) (enemy : List Nat) (ps : Nat) (a b : Int),
      update_soldier_mask m da enemy ps a b ≠ 0 → m a b ≠ 0) := by
  have hpt : ∀ (n : Nat) (a b : Int),
      (getPlayer (move_selected_piece st dir).2 n).mask a b ≠ 0 →
      (getPlayer st n).mask a b ≠ 0 := by
    unfold move_selected_piece
    by_cases hgo : st.game_over.isSome = true
    · rw [if_pos hgo]
      exact fun n a b h => h
    · rw [if_neg hgo]
      cases hsp : st.selected_piece with
      | none => exact fun n a b h => h
      | some sp =>
        by_cases hk : st.selected_is_king = true
        · simp only [hk, if_true]
          unfold king_move
          dsimp only
          intro n a b
          split_ifs with h1 h2 h3
          · intro h
            simp only [getPlayer_logMsg] at h
            exact h
          · intro h
            simp only [getPlayer_completeMove, getPlayer_setHiddenKing,
              getPlayer_withBoard] at h
            exact h
          · intro h
            simp only [getPlayer_withGameOver, getPlayer_logMsg] at h
            exact h
          · intro h
            simp only [getPlayer_logMsg] at h
            exact h
        · simp only [hk, Bool.false_eq_true, if_false]
          unfold formation_move
          dsimp only
          intro n a b
          split_ifs with h1
          case pos =>
            intro h
            simp only [getPlayer_completeMove, getPlayer_withBoard] at h
            by_cases hn : n = 1
            · rw [hn] at h ⊢
              rw [getPlayer_one] at h ⊢
              rw [setPlayerSoldiers_player1_mask] at h
              by_cases hcp1 : st.current_player = 1
              · rw [hcp1, enemyIndex_one, setPlayerMask_two_player1] at h
                exact h
              · rw [enemyIndex_ne_one _ hcp1, setPlayerMask_one_player1_mask] at h
                exact updatedEnemyMask_alive_of_alive _ _ _ _ _ a b h
            · rw [getPlayer_ne_one _ _ hn] at h ⊢
              rw [setPlayerSoldiers_player2_mask] at h
              by_cases hcp1 : st.current_player = 1
              · rw [hcp1, enemyIndex_one, setPlayerMask_two_player2_mask] at h
                exact updatedEnemyMask_alive_of_alive _ _ _ _ _ a b h
              · rw [enemyIndex_ne_one _ hcp1, setPlayerMask_one_player2] at h
                exact h
          case neg =>
            intro h
            simp only [getPlayer_logMsg] at h
            exact h
  refine ⟨hpt, fun n => aliveCount_mono _ _ (hpt n), ?_, ?_⟩
  · intro hk2
    cases hgo2 : st.game_over with
    | some w =>
      unfold move_selected_piece
      simp only [hgo2, Option.isSome_some, if_true]
    | none =>
      cases hsp2 : st.selected_piece with
      | none =>
        unfold move_selected_piece
        simp only [hgo2, hsp2, Option.isSome_none, Bool.false_eq_true, if_false]
      | some sp =>
        rw [move_selected_piece_formation st dir sp hgo2 hsp2 hk2]
        by_cases hb : 0 ≤ (getPlayer st st.current_player).soldiers.1 + dir.1 ∧
            (getPlayer st st.current_player).soldiers.1 + dir.1 ≤ 9 - 3 ∧
            0 ≤ (getPlayer st st.current_player).soldiers.2 + dir.2 ∧
            (getPlayer st st.current_player).soldiers.2 + dir.2 ≤ 9 - 3
        · exact (formation_move_masks st dir.1 dir.2 hb).2
        · unfold formation_move
          rw [if_pos hb]
          rw [getPlayer_logMsg]
  · intro m da enemy ps a b h
    unfold update_soldier_mask at h
    by_cases hc : 0 ≤ a ∧ a < 3 ∧ 0 ≤ b ∧ b < 3 ∧ m a b = ps ∧ da a b ∈ enemy
    · rw [if_pos hc] at h
      exact absurd rfl h
    · rw [if_neg hc] at h
      exact h

/-- Witness for C10: after the first formation move from the selected
initial state, the enemy alive count has not grown and the mover's stored
mask is untouched. -/
theorem C10_masks_monotone_witness :
    (getPlayer selState 2).mask 0 0 ≠ 0 ∧
    aliveCount (getPlayer (move_selected_piece selState (1, 0)).2 2).mask ≤
      aliveCount (getPlayer selState 2).mask ∧
    (getPlayer (move_selected_piece selState (1, 0)).2 1).mask =
      (getPlayer selState 1).mask := by
  have h := C10_masks_monotone selState (1, 0)
  exact ⟨h.1 2 0 0 (by decide), h.2.1 2, h.2.2.1 rfl⟩

end BattleGame
